import Mathlib

/-!
Verification of the bay_wheels_balancer core against its specification.

The development shallowly embeds the four components of the repository:
the demand profile builder (`src/db/build_station_flow_15min.py`), the
forecast engine (`src/db/run_forecast.py`), the rebalancing matcher
(`src/scripts/build_suggestions.py`), and the task dispatch queue
(`src/backend/app/api/routes.py`).  SQL numerics are modelled as `ℚ`,
SQL integers as `Int`, tables as lists of rows.
-/

namespace BayWheels

/-- Postgres `ROUND(numeric)`: round half away from zero, as an integer. -/
def sqlRound (q : ℚ) : Int :=
  if 0 ≤ q then ⌊q + 1/2⌋ else -⌊(1/2) - q⌋

/-- The `forecast_risk_status` enumeration. -/
inductive RiskStatus
  | empty_soon
  | full_soon
  | balanced
deriving DecidableEq, Repr

/-- A timestamp, represented by the only fields the SQL reads from it:
`EXTRACT(dow)`, `EXTRACT(hour)` and `EXTRACT(minute)`. -/
structure Timestamp where
  dow : Nat
  hour : Nat
  minute : Nat
deriving DecidableEq, Repr

/-- A row of the `station_15min_demand` table. -/
structure DemandBucket where
  station_id : Nat
  day_of_week : Nat
  hour_of_day : Nat
  quarter_hour : Nat
  avg_net_flow_15m : ℚ
deriving DecidableEq, Repr

/-- A row of the `station_inventory` table. -/
structure InventorySnapshot where
  station_id : Nat
  current_bikes : Int
  capacity : Int
  last_reported : Timestamp
deriving DecidableEq, Repr

/-- A row of the `forecast_station_status` table, as inserted by
`run_forecast.py`. -/
structure ForecastRecord where
  station_id : Nat
  forecast_ts : Timestamp
  predicted_bikes_15m : Int
  risk_status : RiskStatus
deriving DecidableEq, Repr

namespace Forecast

/-- Rows matching the exact-bucket subquery of the `COALESCE` chain. -/
def rowsExact (table : List DemandBucket) (sid d h q : Nat) : List DemandBucket :=
  table.filter fun b =>
    decide (b.station_id = sid ∧ b.day_of_week = d ∧ b.hour_of_day = h ∧ b.quarter_hour = q)

/-- Rows matching the same-day-and-hour fallback subquery. -/
def rowsDayHour (table : List DemandBucket) (sid d h : Nat) : List DemandBucket :=
  table.filter fun b =>
    decide (b.station_id = sid ∧ b.day_of_week = d ∧ b.hour_of_day = h)

/-- Rows matching the same-hour-and-quarter fallback subquery. -/
def rowsHourQuarter (table : List DemandBucket) (sid h q : Nat) : List DemandBucket :=
  table.filter fun b =>
    decide (b.station_id = sid ∧ b.hour_of_day = h ∧ b.quarter_hour = q)

/-- Rows matching the station-level fallback subquery. -/
def rowsStation (table : List DemandBucket) (sid : Nat) : List DemandBucket :=
  table.filter fun b => decide (b.station_id = sid)

/-- SQL `AVG(avg_net_flow_15m)` over a set of rows: `NULL` (`none`) on the
empty set, otherwise the arithmetic mean. -/
def avgFlow (rows : List DemandBucket) : Option ℚ :=
  if rows.isEmpty then none
  else some ((rows.map DemandBucket.avg_net_flow_15m).sum / rows.length)

/-- The `demand_lookup` CTE of `run_forecast.py`: `COALESCE` over the exact
match (a `LIMIT 1` scalar subquery, `NULL` when no row matches), three
averaging fallbacks, and the constant `0.0` — the first non-`NULL` wins. -/
def expectedNetFlow (table : List DemandBucket) (sid d h q : Nat) : ℚ :=
  match ((rowsExact table sid d h q).head?).map DemandBucket.avg_net_flow_15m with
  | some v => v
  | none =>
    match avgFlow (rowsDayHour table sid d h) with
    | some v => v
    | none =>
      match avgFlow (rowsHourQuarter table sid h q) with
      | some v => v
      | none =>
        match avgFlow (rowsStation table sid) with
        | some v => v
        | none => 0

/-- The `predictions` CTE applied to one inventory snapshot: compute the
rounded prediction, clamp it with `GREATEST(0, LEAST(capacity, …))`, and
classify risk from the unclamped rounded value. -/
def forecastStep (empty_threshold full_margin : Int) (table : List DemandBucket)
    (si : InventorySnapshot) : ForecastRecord :=
  let d := si.last_reported.dow
  let h := si.last_reported.hour
  let q := si.last_reported.minute / 15
  let flow := expectedNetFlow table si.station_id d h q
  let rounded := sqlRound ((si.current_bikes : ℚ) + flow)
  { station_id := si.station_id
    forecast_ts := si.last_reported
    predicted_bikes_15m := max 0 (min si.capacity rounded)
    risk_status :=
      if rounded ≤ empty_threshold then RiskStatus.empty_soon
      else if rounded ≥ si.capacity - full_margin then RiskStatus.full_soon
      else RiskStatus.balanced }

/-- The full `forecast_sql` pass: the list of records inserted into
`forecast_station_status`, one per `station_inventory` row. -/
def runForecast (empty_threshold full_margin : Int) (table : List DemandBucket)
    (inv : List InventorySnapshot) : List ForecastRecord :=
  inv.map (forecastStep empty_threshold full_margin table)

/-- Modelled from the spec: the ordered fallback chain of §4.2, written as
the spec lists it — exact (station, day, hour, quarter) match first, then the
(station, day, hour) average, then the (station, hour, quarter) average, then
the station-wide average, then `0.0`, taking the first level that yields
data. -/
def specResolveNetFlow (table : List DemandBucket) (sid d h q : Nat) : ℚ :=
  match table.find? (fun b =>
      decide (b.station_id = sid ∧ b.day_of_week = d ∧ b.hour_of_day = h ∧
        b.quarter_hour = q)) with
  | some b => b.avg_net_flow_15m
  | none =>
    let l2 := rowsDayHour table sid d h
    if l2.isEmpty then
      let l3 := rowsHourQuarter table sid h q
      if l3.isEmpty then
        let l4 := rowsStation table sid
        if l4.isEmpty then 0
        else (l4.map DemandBucket.avg_net_flow_15m).sum / l4.length
      else (l3.map DemandBucket.avg_net_flow_15m).sum / l3.length
    else (l2.map DemandBucket.avg_net_flow_15m).sum / l2.length

end Forecast

namespace Forecast

theorem find_eq_filter_head {α : Type} (p : α → Bool) (l : List α) :
    l.find? p = (l.filter p).head? := by
  induction l with
  | nil => rfl
  | cons a l ih =>
    cases hpa : p a with
    | true =>
      rw [List.find?_cons_of_pos _ hpa, List.filter_cons_of_pos hpa, List.head?_cons]
    | false =>
      rw [List.find?_cons_of_neg _ (by simp [hpa]),
        List.filter_cons_of_neg (by simp [hpa]), ih]

theorem rowsExact_station {table : List DemandBucket} {sid d h q : Nat} :
    ∀ b ∈ rowsExact table sid d h q, b.station_id = sid := by
  intro b hb
  simp only [rowsExact, List.mem_filter, decide_eq_true_eq] at hb
  exact hb.2.1

theorem rowsDayHour_station {table : List DemandBucket} {sid d h : Nat} :
    ∀ b ∈ rowsDayHour table sid d h, b.station_id = sid := by
  intro b hb
  simp only [rowsDayHour, List.mem_filter, decide_eq_true_eq] at hb
  exact hb.2.1

theorem rowsHourQuarter_station {table : List DemandBucket} {sid h q : Nat} :
    ∀ b ∈ rowsHourQuarter table sid h q, b.station_id = sid := by
  intro b hb
  simp only [rowsHourQuarter, List.mem_filter, decide_eq_true_eq] at hb
  exact hb.2.1

theorem rowsStation_station {table : List DemandBucket} {sid : Nat} :
    ∀ b ∈ rowsStation table sid, b.station_id = sid := by
  intro b hb
  simp only [rowsStation, List.mem_filter, decide_eq_true_eq] at hb
  exact hb.2

end Forecast

/-- C7: the forecast engine resolves expected net flow by the ordered
fallback chain — exact (station, day, hour, quarter) match first, then the
(station, day, hour) average, then the (station, hour, quarter) average,
then the station-wide average, then `0.0` — taking the first level that
yields data (so a station with data at both level 1 and level 3 gets
level 1's value), and a station with no demand history at all resolves to
exactly `0`. -/
theorem forecast_fallback_chain (table : List DemandBucket) (sid d h q : Nat) :
    Forecast.expectedNetFlow table sid d h q = Forecast.specResolveNetFlow table sid d h q ∧
    Forecast.expectedNetFlow
      (table.filter fun b => decide (b.station_id ≠ sid)) sid d h q = 0 := by
  constructor
  · unfold Forecast.specResolveNetFlow
    rw [Forecast.find_eq_filter_head]
    have hre : List.filter (fun b =>
        decide (b.station_id = sid ∧ b.day_of_week = d ∧ b.hour_of_day = h ∧
          b.quarter_hour = q)) table = Forecast.rowsExact table sid d h q := rfl
    rw [hre]
    unfold Forecast.expectedNetFlow
    cases (Forecast.rowsExact table sid d h q).head? with
    | some b => rfl
    | none =>
      show (match Forecast.avgFlow (Forecast.rowsDayHour table sid d h) with
        | some v => v
        | none => _) = _
      unfold Forecast.avgFlow
      by_cases h2 : (Forecast.rowsDayHour table sid d h).isEmpty <;>
        by_cases h3 : (Forecast.rowsHourQuarter table sid h q).isEmpty <;>
          by_cases h4 : (Forecast.rowsStation table sid).isEmpty <;>
            simp [h2, h3, h4]
  · have hgen : ∀ (t' : List DemandBucket), (∀ b ∈ t', b.station_id ≠ sid) →
        Forecast.expectedNetFlow t' sid d h q = 0 := by
      intro t' ht'
      have he : Forecast.rowsExact t' sid d h q = [] := by
        rw [Forecast.rowsExact, List.filter_eq_nil_iff]
        intro b hb
        simp only [decide_eq_true_eq, not_and]
        intro hs
        exact absurd hs (ht' b hb)
      have h2 : Forecast.rowsDayHour t' sid d h = [] := by
        rw [Forecast.rowsDayHour, List.filter_eq_nil_iff]
        intro b hb
        simp only [decide_eq_true_eq, not_and]
        intro hs
        exact absurd hs (ht' b hb)
      have h3 : Forecast.rowsHourQuarter t' sid h q = [] := by
        rw [Forecast.rowsHourQuarter, List.filter_eq_nil_iff]
        intro b hb
        simp only [decide_eq_true_eq, not_and]
        intro hs
        exact absurd hs (ht' b hb)
      have h4 : Forecast.rowsStation t' sid = [] := by
        rw [Forecast.rowsStation, List.filter_eq_nil_iff]
        intro b hb
        simp [ht' b hb]
      unfold Forecast.expectedNetFlow
      rw [he, h2, h3, h4]
      rfl
    apply hgen
    intro b hb
    simp only [List.mem_filter, decide_eq_true_eq] at hb
    exact hb.2

/-- C1 counterexample: the code classifies risk from the UNCLAMPED rounded
prediction and gives a non-positive-capacity station no special treatment.
At capacity 0 with 0 bikes and no demand history the written status is
`empty_soon`, not `balanced`; and at capacity 1 with 3 bikes the clamped
prediction is `1 ≤ empty_threshold = 2` yet the written status is
`full_soon`, not `empty_soon`. -/
theorem risk_status_claim_counterexample :
    ((Forecast.runForecast 2 3 [] [⟨1, 0, 0, ⟨1, 12, 0⟩⟩]).map
        ForecastRecord.risk_status = [RiskStatus.empty_soon] ∧
      (0 : Int) ≤ 0 ∧ RiskStatus.empty_soon ≠ RiskStatus.balanced) ∧
    ((Forecast.runForecast 2 3 [] [⟨2, 3, 1, ⟨1, 12, 0⟩⟩]).map
        (fun r => (r.predicted_bikes_15m, r.risk_status)) =
          [((1 : Int), RiskStatus.full_soon)] ∧
      (1 : Int) ≤ 2 ∧ RiskStatus.full_soon ≠ RiskStatus.empty_soon) := by
  refine ⟨⟨?_, le_refl 0, by simp⟩, ⟨?_, by norm_num, by simp⟩⟩ <;>
    norm_num [Forecast.runForecast, Forecast.forecastStep, Forecast.expectedNetFlow,
      Forecast.rowsExact, Forecast.rowsDayHour, Forecast.rowsHourQuarter,
      Forecast.rowsStation, Forecast.avgFlow, sqlRound]

/-- C1 (amended): the risk status written for the i-th snapshot is computed
from the unclamped rounded prediction `round(current_bikes +
expected_net_flow)`: at most `empty_threshold` gives `empty_soon`, else at
least `capacity - full_margin` gives `full_soon`, else `balanced`; a
non-positive capacity receives no special treatment. -/
theorem risk_status_from_unclamped_prediction (et fm : Int) (table : List DemandBucket)
    (inv : List InventorySnapshot) (i : Nat) (si : InventorySnapshot)
    (hsi : inv[i]? = some si) :
    ∃ r : ForecastRecord, (Forecast.runForecast et fm table inv)[i]? = some r ∧
      r.station_id = si.station_id ∧ r.forecast_ts = si.last_reported ∧
      r.risk_status =
        (if sqlRound ((si.current_bikes : ℚ) +
              Forecast.expectedNetFlow table si.station_id si.last_reported.dow
                si.last_reported.hour (si.last_reported.minute / 15)) ≤ et then
          RiskStatus.empty_soon
        else if sqlRound ((si.current_bikes : ℚ) +
              Forecast.expectedNetFlow table si.station_id si.last_reported.dow
                si.last_reported.hour (si.last_reported.minute / 15)) ≥
            si.capacity - fm then
          RiskStatus.full_soon
        else RiskStatus.balanced) := by
  refine ⟨Forecast.forecastStep et fm table si, ?_, rfl, rfl, rfl⟩
  simp [Forecast.runForecast, List.getElem?_map, hsi]

/-- C1 witness: the amended risk rule evaluated on a concrete snapshot. -/
theorem risk_status_from_unclamped_prediction_witness :
    ∃ r : ForecastRecord,
      (Forecast.runForecast 2 3 [] [⟨7, 10, 20, ⟨2, 8, 30⟩⟩])[0]? = some r ∧
      r.station_id = 7 ∧ r.forecast_ts = ⟨2, 8, 30⟩ ∧
      r.risk_status =
        (if sqlRound ((10 : ℚ) + Forecast.expectedNetFlow [] 7 2 8 2) ≤ 2 then
          RiskStatus.empty_soon
        else if sqlRound ((10 : ℚ) + Forecast.expectedNetFlow [] 7 2 8 2) ≥ 20 - 3 then
          RiskStatus.full_soon
        else RiskStatus.balanced) :=
  risk_status_from_unclamped_prediction 2 3 [] [⟨7, 10, 20, ⟨2, 8, 30⟩⟩] 0
    ⟨7, 10, 20, ⟨2, 8, 30⟩⟩ rfl

/-- C8 counterexample: with a negative capacity, `GREATEST(0, LEAST(capacity,
…))` stores 0, which is NOT `≤ capacity`; the claim's bound fails on a
snapshot with capacity -1. -/
theorem predicted_bounds_claim_counterexample :
    (Forecast.runForecast 2 3 [] [⟨3, 0, -1, ⟨1, 12, 0⟩⟩]).map
        ForecastRecord.predicted_bikes_15m = [(0 : Int)] ∧
    ¬((0 : Int) ≤ -1) := by
  refine ⟨?_, by norm_num⟩
  norm_num [Forecast.runForecast, Forecast.forecastStep, Forecast.expectedNetFlow,
    Forecast.rowsExact, Forecast.rowsDayHour, Forecast.rowsHourQuarter,
    Forecast.rowsStation, Forecast.avgFlow, sqlRound]

/-- C8 (amended): the stored prediction equals `max 0 (min capacity
(round(current_bikes + expected_net_flow)))`; it is always non-negative,
and it is at most the capacity whenever the capacity is non-negative. -/
theorem predicted_bikes_clamped (et fm : Int) (table : List DemandBucket)
    (inv : List InventorySnapshot) (i : Nat) (si : InventorySnapshot)
    (hsi : inv[i]? = some si) :
    ∃ r : ForecastRecord, (Forecast.runForecast et fm table inv)[i]? = some r ∧
      r.predicted_bikes_15m =
        max 0 (min si.capacity (sqlRound ((si.current_bikes : ℚ) +
          Forecast.expectedNetFlow table si.station_id si.last_reported.dow
            si.last_reported.hour (si.last_reported.minute / 15)))) ∧
      0 ≤ r.predicted_bikes_15m ∧
      (0 ≤ si.capacity → r.predicted_bikes_15m ≤ si.capacity) := by
  refine ⟨Forecast.forecastStep et fm table si, ?_, rfl, le_max_left 0 _, ?_⟩
  · simp [Forecast.runForecast, List.getElem?_map, hsi]
  · intro hcap
    show max 0 (min si.capacity _) ≤ si.capacity
    exact max_le hcap (min_le_left _ _)

/-- C8 witness: the amended clamping bounds evaluated on a concrete
snapshot. -/
theorem predicted_bikes_clamped_witness :
    ∃ r : ForecastRecord,
      (Forecast.runForecast 2 3 [] [⟨7, 10, 20, ⟨2, 8, 30⟩⟩])[0]? = some r ∧
      r.predicted_bikes_15m =
        max 0 (min 20 (sqlRound ((10 : ℚ) + Forecast.expectedNetFlow [] 7 2 8 2))) ∧
      0 ≤ r.predicted_bikes_15m ∧
      (0 ≤ (20 : Int) → r.predicted_bikes_15m ≤ 20) :=
  predicted_bikes_clamped 2 3 [] [⟨7, 10, 20, ⟨2, 8, 30⟩⟩] 0
    ⟨7, 10, 20, ⟨2, 8, 30⟩⟩ rfl

namespace Dispatch

/-- The `TaskStatusEnum` of `models.py`. -/
inductive TaskStatus
  | ready
  | assigned
  | completed
deriving DecidableEq, Repr

/-- A row of the `tasks` table (`models.py`: id, stations, qty, nullable
reason, status defaulting to ready, nullable worker_id, created_at). -/
structure Task where
  id : Nat
  from_station_id : Nat
  to_station_id : Nat
  qty : Int
  reason : Option String
  status : TaskStatus
  worker_id : Option String
  created_at : Nat
deriving DecidableEq, Repr

/-- A row of the `suggestions` table (`models.py`). -/
structure Suggestion where
  id : Nat
  from_station_id : Nat
  to_station_id : Nat
  qty : Int
  reason : String
  created_at : Nat
deriving DecidableEq, Repr

/-- The database state the dispatch routes read and write: the two tables,
the auto-increment counter for task ids, and the clock backing the
`created_at` default. -/
structure DB where
  suggestions : List Suggestion
  tasks : List Task
  next_task_id : Nat
  now : Nat
deriving DecidableEq, Repr

/-- The `HTTPException`s raised by `routes.py`: each constructor is one
raise site; all three carry status code 404 but distinct detail messages. -/
inductive ApiError
  | suggestionNotFound (sid : Nat)
  | taskNotFound (tid : Nat)
  | noTaskAvailable
deriving DecidableEq, Repr

/-- Every dispatch-route error is surfaced with HTTP status 404. -/
def ApiError.statusCode : ApiError → Nat := fun _ => 404

/-- `db.query(...).filter(id == key).first()`, together with the row's
position: the first row with the given id, if any. -/
def findByIdIdx (key : Nat) (idOf : α → Nat) : List α → Option (Nat × α)
  | [] => none
  | t :: ts =>
    if idOf t = key then some (0, t)
    else (findByIdIdx key idOf ts).map (fun p => (p.1 + 1, p.2))

/-- The `SELECT … WHERE status = ready ORDER BY created_at ASC LIMIT 1` of
`dispatch_next_task`, together with the row's position: the first ready task
with minimal `created_at`, if any ready task exists. -/
def selectReady : List Task → Option (Nat × Task)
  | [] => none
  | t :: ts =>
    match selectReady ts with
    | none => if t.status = TaskStatus.ready then some (0, t) else none
    | some (i, u) =>
      if t.status = TaskStatus.ready then
        if t.created_at ≤ u.created_at then some (0, t) else some (i + 1, u)
      else some (i + 1, u)

/-- `approve_task` (`POST /task/approve`): look up the suggestion; 404 when
absent; otherwise create a ready task copying its fields and delete the
suggestion, in one transaction. -/
def approve_task (sid : Nat) (db : DB) : Except ApiError (Task × DB) :=
  match findByIdIdx sid Suggestion.id db.suggestions with
  | none => Except.error (ApiError.suggestionNotFound sid)
  | some (_, s) =>
    let task : Task :=
      { id := db.next_task_id
        from_station_id := s.from_station_id
        to_station_id := s.to_station_id
        qty := s.qty
        reason := some s.reason
        status := TaskStatus.ready
        worker_id := none
        created_at := db.now }
    Except.ok (task,
      { db with
        suggestions := db.suggestions.eraseP (fun x => decide (x.id = sid))
        tasks := db.tasks ++ [task]
        next_task_id := db.next_task_id + 1 })

/-- `dispatch_next_task` (`POST /dispatch/next`): pick the oldest ready
task; 404 (queue empty) when none; otherwise set it to assigned with the
caller's worker id. -/
def dispatch_next (worker : String) (db : DB) : Except ApiError (Task × DB) :=
  match selectReady db.tasks with
  | none => Except.error ApiError.noTaskAvailable
  | some (i, t) =>
    let t' := { t with status := TaskStatus.assigned, worker_id := some worker }
    Except.ok (t', { db with tasks := db.tasks.set i t' })

/-- `complete_task` (`POST /task/{task_id}/complete`): look up the task;
404 when absent; otherwise set its status to completed unconditionally. -/
def complete_task (tid : Nat) (db : DB) : Except ApiError (Task × DB) :=
  match findByIdIdx tid Task.id db.tasks with
  | none => Except.error (ApiError.taskNotFound tid)
  | some (i, t) =>
    let t' := { t with status := TaskStatus.completed }
    Except.ok (t', { db with tasks := db.tasks.set i t' })

/-- One API call against the queue. -/
inductive Op
  | approve (sid : Nat)
  | dispatch (worker : String)
  | complete (tid : Nat)

/-- The result of one API call. -/
def opResult : Op → DB → Except ApiError (Task × DB)
  | Op.approve sid => approve_task sid
  | Op.dispatch w => dispatch_next w
  | Op.complete tid => complete_task tid

/-- The state after one API call: errors roll back, leaving the state
unchanged. -/
def applyOp (op : Op) (db : DB) : DB :=
  match opResult op db with
  | Except.ok (_, db') => db'
  | Except.error _ => db

/-- The state after a sequence of API calls. -/
def run (ops : List Op) (db : DB) : DB :=
  ops.foldl (fun d op => applyOp op d) db

end Dispatch

namespace Dispatch

theorem findByIdIdx_eq_none {α : Type} {key : Nat} {idOf : α → Nat} {l : List α}
    (h : findByIdIdx key idOf l = none) : ∀ t ∈ l, idOf t ≠ key := by
  induction l with
  | nil => intro t ht; cases ht
  | cons a l ih =>
    intro t ht
    unfold findByIdIdx at h
    by_cases ha : idOf a = key
    · simp [ha] at h
    · simp only [ha, if_false, Option.map_eq_none'] at h
      rcases List.mem_cons.1 ht with rfl | htl
      · exact ha
      · exact ih h t htl

theorem findByIdIdx_of_absent {α : Type} {key : Nat} {idOf : α → Nat} {l : List α}
    (h : ∀ t ∈ l, idOf t ≠ key) : findByIdIdx key idOf l = none := by
  induction l with
  | nil => rfl
  | cons a l ih =>
    unfold findByIdIdx
    have ha : ¬idOf a = key := h a (List.mem_cons_self a l)
    simp only [ha, if_false, Option.map_eq_none']
    exact ih fun t ht => h t (List.mem_cons_of_mem a ht)

theorem findByIdIdx_eq_some {α : Type} {key : Nat} {idOf : α → Nat} {l : List α}
    {i : Nat} {t : α} (h : findByIdIdx key idOf l = some (i, t)) :
    l[i]? = some t ∧ idOf t = key := by
  induction l generalizing i with
  | nil => cases h
  | cons a l ih =>
    unfold findByIdIdx at h
    by_cases ha : idOf a = key
    · simp only [ha, if_true, Option.some_inj] at h
      cases h
      simp [ha]
    · simp only [ha, if_false, Option.map_eq_some'] at h
      obtain ⟨⟨j, u⟩, hju, heq⟩ := h
      cases heq
      obtain ⟨hget, hid⟩ := ih hju
      exact ⟨by simpa using hget, hid⟩

theorem findByIdIdx_isSome {α : Type} {key : Nat} {idOf : α → Nat} {l : List α}
    {s : α} (hs : s ∈ l) (hid : idOf s = key) :
    ∃ i t, findByIdIdx key idOf l = some (i, t) := by
  cases h : findByIdIdx key idOf l with
  | some p => exact ⟨p.1, p.2, rfl⟩
  | none => exact absurd hid (findByIdIdx_eq_none h s hs)

theorem selectReady_eq_none {l : List Task} (h : selectReady l = none) :
    ∀ t ∈ l, t.status ≠ TaskStatus.ready := by
  induction l with
  | nil => intro t ht; cases ht
  | cons a l ih =>
    intro t ht
    unfold selectReady at h
    cases hsr : selectReady l with
    | none =>
      rw [hsr] at h
      by_cases ha : a.status = TaskStatus.ready
      · simp [ha] at h
      · rcases List.mem_cons.1 ht with rfl | htl
        · exact ha
        · exact ih hsr t htl
    | some p =>
      rw [hsr] at h
      by_cases ha : a.status = TaskStatus.ready
      · rcases p with ⟨i, u⟩
        by_cases hc : a.created_at ≤ u.created_at <;> simp [ha, hc] at h
      · rcases p with ⟨i, u⟩
        simp [ha] at h

theorem selectReady_of_absent {l : List Task}
    (h : ∀ t ∈ l, t.status ≠ TaskStatus.ready) : selectReady l = none := by
  induction l with
  | nil => rfl
  | cons a l ih =>
    have ha : ¬a.status = TaskStatus.ready := h a (List.mem_cons_self a l)
    have hl : selectReady l = none := ih fun t ht => h t (List.mem_cons_of_mem a ht)
    unfold selectReady
    rw [hl]
    simp [ha]

theorem selectReady_eq_some {l : List Task} {i : Nat} {u : Task}
    (h : selectReady l = some (i, u)) :
    l[i]? = some u ∧ u.status = TaskStatus.ready ∧
      ∀ t ∈ l, t.status = TaskStatus.ready → u.created_at ≤ t.created_at := by
  induction l generalizing i u with
  | nil => cases h
  | cons a l ih =>
    unfold selectReady at h
    cases hsr : selectReady l with
    | none =>
      rw [hsr] at h
      have hnone := selectReady_eq_none hsr
      by_cases ha : a.status = TaskStatus.ready
      · simp only [ha, if_true, Option.some_inj] at h
        cases h
        refine ⟨by simp, ha, ?_⟩
        intro t ht hready
        rcases List.mem_cons.1 ht with rfl | htl
        · exact le_refl _
        · exact absurd hready (hnone t htl)
      · simp [ha] at h
    | some p =>
      rcases p with ⟨j, v⟩
      rw [hsr] at h
      obtain ⟨hget, hready, hmin⟩ := ih hsr
      by_cases ha : a.status = TaskStatus.ready
      · by_cases hc : a.created_at ≤ v.created_at
        · simp only [ha, hc, if_true, Option.some_inj] at h
          cases h
          refine ⟨by simp, ha, ?_⟩
          intro t ht hr
          rcases List.mem_cons.1 ht with rfl | htl
          · exact le_refl _
          · exact le_trans hc (hmin t htl hr)
        · simp only [ha, hc, if_true, if_false, Option.some_inj] at h
          cases h
          refine ⟨by simpa using hget, hready, ?_⟩
          intro t ht hr
          rcases List.mem_cons.1 ht with rfl | htl
          · exact le_of_lt (lt_of_not_le hc)
          · exact hmin t htl hr
      · simp only [ha, if_false, Option.some_inj] at h
        cases h
        refine ⟨by simpa using hget, hready, ?_⟩
        intro t ht hr
        rcases List.mem_cons.1 ht with rfl | htl
        · exact absurd hr ha
        · exact hmin t htl hr

theorem selectReady_isSome {l : List Task} {s : Task} (hs : s ∈ l)
    (hr : s.status = TaskStatus.ready) : ∃ i u, selectReady l = some (i, u) := by
  cases h : selectReady l with
  | some p => exact ⟨p.1, p.2, rfl⟩
  | none => exact absurd hr (selectReady_eq_none h s hs)

theorem nodup_eraseP_id {sid : Nat} (l : List Suggestion)
    (hnd : (l.map Suggestion.id).Nodup) :
    ∀ x ∈ l.eraseP (fun s => decide (s.id = sid)), x.id ≠ sid := by
  induction l with
  | nil => intro x hx; cases hx
  | cons a l ih =>
    rw [List.map_cons, List.nodup_cons] at hnd
    by_cases ha : a.id = sid
    · rw [List.eraseP_cons_of_pos (by simp [ha])]
      intro x hx hxid
      refine hnd.1 ?_
      rw [ha, ← hxid]
      exact List.mem_map_of_mem Suggestion.id hx
    · rw [List.eraseP_cons_of_neg (by simp [ha])]
      intro x hx
      rcases List.mem_cons.1 hx with rfl | hxl
      · exact ha
      · exact ih hnd.2 x hxl

theorem opResult_approve (sid : Nat) (db : DB) :
    opResult (Op.approve sid) db = approve_task sid db := rfl

theorem opResult_dispatch (w : String) (db : DB) :
    opResult (Op.dispatch w) db = dispatch_next w db := rfl

theorem opResult_complete (tid : Nat) (db : DB) :
    opResult (Op.complete tid) db = complete_task tid db := rfl

theorem applyOp_of_error {op : Op} {db : DB} {e : ApiError}
    (h : opResult op db = Except.error e) : applyOp op db = db := by
  unfold applyOp
  rw [h]

theorem applyOp_of_ok {op : Op} {db db' : DB} {t : Task}
    (h : opResult op db = Except.ok (t, db')) : applyOp op db = db' := by
  unfold applyOp
  rw [h]

theorem approve_ok_inv {sid : Nat} {db db' : DB} {t' : Task}
    (hok : approve_task sid db = Except.ok (t', db')) :
    db'.tasks = db.tasks ++ [t'] ∧
    db'.suggestions = db.suggestions.eraseP (fun x => decide (x.id = sid)) ∧
    db'.next_task_id = db.next_task_id + 1 ∧ db'.now = db.now ∧
    t'.status = TaskStatus.ready ∧ t'.worker_id = none ∧
    t'.id = db.next_task_id ∧ t'.created_at = db.now := by
  unfold approve_task at hok
  cases hf : findByIdIdx sid Suggestion.id db.suggestions with
  | none => rw [hf] at hok; cases hok
  | some p =>
    rcases p with ⟨i, s⟩
    rw [hf] at hok
    cases hok
    exact ⟨rfl, rfl, rfl, rfl, rfl, rfl, rfl, rfl⟩

theorem dispatch_ok_inv {w : String} {db db' : DB} {t' : Task}
    (hok : dispatch_next w db = Except.ok (t', db')) :
    ∃ i t, selectReady db.tasks = some (i, t) ∧ db.tasks[i]? = some t ∧
      t.status = TaskStatus.ready ∧
      t' = { t with status := TaskStatus.assigned, worker_id := some w } ∧
      db' = { db with tasks := db.tasks.set i t' } := by
  unfold dispatch_next at hok
  cases hsel : selectReady db.tasks with
  | none => rw [hsel] at hok; cases hok
  | some p =>
    rcases p with ⟨i, t⟩
    rw [hsel] at hok
    obtain ⟨hget, hready, _⟩ := selectReady_eq_some hsel
    cases hok
    exact ⟨i, t, rfl, hget, hready, rfl, rfl⟩

theorem complete_ok_inv {tid : Nat} {db db' : DB} {t' : Task}
    (hok : complete_task tid db = Except.ok (t', db')) :
    ∃ i t, db.tasks[i]? = some t ∧ t.id = tid ∧
      t' = { t with status := TaskStatus.completed } ∧
      db' = { db with tasks := db.tasks.set i t' } := by
  unfold complete_task at hok
  cases hf : findByIdIdx tid Task.id db.tasks with
  | none => rw [hf] at hok; cases hok
  | some p =>
    rcases p with ⟨i, t⟩
    rw [hf] at hok
    obtain ⟨hget, hid⟩ := findByIdIdx_eq_some hf
    cases hok
    exact ⟨i, t, hget, hid, rfl, rfl⟩

end Dispatch

/-- C2: `POST /dispatch/next` with no ready task fails with the
queue-empty error — distinct from both not-found errors — and changes no
state; with at least one ready task it succeeds, returning a task that was
ready with minimal creation time, now assigned to the caller's worker id,
with exactly that row updated and the rest of the state untouched. -/
theorem dispatch_next_claim (w : String) (db : Dispatch.DB) :
    ((∀ t ∈ db.tasks, t.status ≠ Dispatch.TaskStatus.ready) →
      Dispatch.dispatch_next w db =
        Except.error Dispatch.ApiError.noTaskAvailable ∧
      Dispatch.applyOp (Dispatch.Op.dispatch w) db = db ∧
      (∀ tid, Dispatch.ApiError.noTaskAvailable ≠ Dispatch.ApiError.taskNotFound tid) ∧
      (∀ sid, Dispatch.ApiError.noTaskAvailable ≠
        Dispatch.ApiError.suggestionNotFound sid)) ∧
    (∀ t' db', Dispatch.dispatch_next w db = Except.ok (t', db') →
      ∃ i t, db.tasks[i]? = some t ∧ t.status = Dispatch.TaskStatus.ready ∧
        (∀ u ∈ db.tasks, u.status = Dispatch.TaskStatus.ready →
          t.created_at ≤ u.created_at) ∧
        t' = { t with status := Dispatch.TaskStatus.assigned, worker_id := some w } ∧
        db' = { db with tasks := db.tasks.set i t' } ∧
        (∀ j, j ≠ i → db'.tasks[j]? = db.tasks[j]?)) ∧
    ((∃ t ∈ db.tasks, t.status = Dispatch.TaskStatus.ready) →
      ∃ t' db', Dispatch.dispatch_next w db = Except.ok (t', db')) := by
  refine ⟨?_, ?_, ?_⟩
  · intro hno
    have hsel := Dispatch.selectReady_of_absent hno
    have herr : Dispatch.dispatch_next w db =
        Except.error Dispatch.ApiError.noTaskAvailable := by
      unfold Dispatch.dispatch_next
      rw [hsel]
    refine ⟨herr, ?_, fun tid => by simp, fun sid => by simp⟩
    exact Dispatch.applyOp_of_error ((Dispatch.opResult_dispatch w db).trans herr)
  · intro t' db' hok
    unfold Dispatch.dispatch_next at hok
    cases hsel : Dispatch.selectReady db.tasks with
    | none => rw [hsel] at hok; cases hok
    | some p =>
      rcases p with ⟨i, t⟩
      rw [hsel] at hok
      obtain ⟨hget, hready, hmin⟩ := Dispatch.selectReady_eq_some hsel
      cases hok
      refine ⟨i, t, hget, hready, hmin, rfl, rfl, ?_⟩
      intro j hj
      exact List.getElem?_set_ne fun h => hj h.symm
  · intro hexists
    obtain ⟨s, hs, hr⟩ := hexists
    obtain ⟨i, u, hsel⟩ := Dispatch.selectReady_isSome hs hr
    cases hres : Dispatch.dispatch_next w db with
    | ok p =>
      rcases p with ⟨t1, db1⟩
      exact ⟨t1, db1, rfl⟩
    | error e =>
      unfold Dispatch.dispatch_next at hres
      rw [hsel] at hres
      cases hres

/-- C2 witness: both branches of the claim on concrete states — a queue
with no ready task yields the queue-empty error and leaves the state
unchanged, and a queue with one ready task yields that task assigned. -/
theorem dispatch_next_claim_witness :
    (Dispatch.dispatch_next "w1" ⟨[], [], 0, 0⟩ =
        Except.error Dispatch.ApiError.noTaskAvailable ∧
      Dispatch.applyOp (Dispatch.Op.dispatch "w1") ⟨[], [], 0, 0⟩ = ⟨[], [], 0, 0⟩ ∧
      (∀ tid, Dispatch.ApiError.noTaskAvailable ≠ Dispatch.ApiError.taskNotFound tid) ∧
      (∀ sid, Dispatch.ApiError.noTaskAvailable ≠
        Dispatch.ApiError.suggestionNotFound sid)) ∧
    (∃ i t, ([⟨1, 4, 5, 3, none, Dispatch.TaskStatus.ready, none, 10⟩] :
        List Dispatch.Task)[i]? = some t ∧
      t.status = Dispatch.TaskStatus.ready ∧
      (∀ u ∈ ([⟨1, 4, 5, 3, none, Dispatch.TaskStatus.ready, none, 10⟩] :
          List Dispatch.Task), u.status = Dispatch.TaskStatus.ready →
        t.created_at ≤ u.created_at) ∧
      (⟨1, 4, 5, 3, none, Dispatch.TaskStatus.assigned, some "w1", 10⟩ : Dispatch.Task) =
        { t with status := Dispatch.TaskStatus.assigned, worker_id := some "w1" } ∧
      (⟨[], [⟨1, 4, 5, 3, none, Dispatch.TaskStatus.assigned, some "w1", 10⟩], 2, 0⟩ :
        Dispatch.DB) =
        { (⟨[], [⟨1, 4, 5, 3, none, Dispatch.TaskStatus.ready, none, 10⟩], 2, 0⟩ :
            Dispatch.DB) with
          tasks := [⟨1, 4, 5, 3, none, Dispatch.TaskStatus.ready, none, 10⟩].set i
            (⟨1, 4, 5, 3, none, Dispatch.TaskStatus.assigned, some "w1", 10⟩ :
              Dispatch.Task) } ∧
      (∀ j, j ≠ i →
        ((⟨[], [⟨1, 4, 5, 3, none, Dispatch.TaskStatus.assigned, some "w1", 10⟩], 2, 0⟩ :
          Dispatch.DB)).tasks[j]? =
          ([⟨1, 4, 5, 3, none, Dispatch.TaskStatus.ready, none, 10⟩] :
            List Dispatch.Task)[j]?)) :=
  ⟨(dispatch_next_claim "w1" ⟨[], [], 0, 0⟩).1 (by intro t ht; cases ht),
    (dispatch_next_claim "w1"
      ⟨[], [⟨1, 4, 5, 3, none, Dispatch.TaskStatus.ready, none, 10⟩], 2, 0⟩).2.1
      ⟨1, 4, 5, 3, none, Dispatch.TaskStatus.assigned, some "w1", 10⟩
      ⟨[], [⟨1, 4, 5, 3, none, Dispatch.TaskStatus.assigned, some "w1", 10⟩], 2, 0⟩ rfl⟩

/-- C3: `POST /task/approve` with an absent suggestion id fails with
not-found and changes nothing; with a present one it creates a ready task
copying the suggestion's fields and deletes that suggestion, both in the
same step. -/
theorem approve_task_claim (sid : Nat) (db : Dispatch.DB) :
    ((∀ s ∈ db.suggestions, s.id ≠ sid) →
      Dispatch.approve_task sid db =
        Except.error (Dispatch.ApiError.suggestionNotFound sid) ∧
      Dispatch.applyOp (Dispatch.Op.approve sid) db = db) ∧
    (∀ t' db', Dispatch.approve_task sid db = Except.ok (t', db') →
      ∃ s, s ∈ db.suggestions ∧ s.id = sid ∧
        t'.from_station_id = s.from_station_id ∧
        t'.to_station_id = s.to_station_id ∧ t'.qty = s.qty ∧
        t'.reason = some s.reason ∧ t'.status = Dispatch.TaskStatus.ready ∧
        t'.worker_id = none ∧
        db'.tasks = db.tasks ++ [t'] ∧
        db'.suggestions = db.suggestions.eraseP (fun x => decide (x.id = sid)) ∧
        ((db.suggestions.map Dispatch.Suggestion.id).Nodup →
          ∀ x ∈ db'.suggestions, x.id ≠ sid)) ∧
    ((∃ s ∈ db.suggestions, s.id = sid) →
      ∃ t' db', Dispatch.approve_task sid db = Except.ok (t', db')) := by
  refine ⟨?_, ?_, ?_⟩
  · intro habs
    have hf := Dispatch.findByIdIdx_of_absent habs
    have herr : Dispatch.approve_task sid db =
        Except.error (Dispatch.ApiError.suggestionNotFound sid) := by
      unfold Dispatch.approve_task
      rw [hf]
    exact ⟨herr, Dispatch.applyOp_of_error
      ((Dispatch.opResult_approve sid db).trans herr)⟩
  · intro t' db' hok
    unfold Dispatch.approve_task at hok
    cases hf : Dispatch.findByIdIdx sid Dispatch.Suggestion.id db.suggestions with
    | none => rw [hf] at hok; cases hok
    | some p =>
      rcases p with ⟨i, s⟩
      rw [hf] at hok
      obtain ⟨hget, hid⟩ := Dispatch.findByIdIdx_eq_some hf
      have hmem : s ∈ db.suggestions := by
        rw [List.mem_iff_getElem?]
        exact ⟨i, hget⟩
      cases hok
      refine ⟨s, hmem, hid, rfl, rfl, rfl, rfl, rfl, rfl, rfl, rfl, ?_⟩
      intro hnd x hx
      exact Dispatch.nodup_eraseP_id db.suggestions hnd x hx
  · intro hexists
    obtain ⟨s, hs, hid⟩ := hexists
    obtain ⟨i, t, hf⟩ := Dispatch.findByIdIdx_isSome hs hid
    cases hres : Dispatch.approve_task sid db with
    | ok p =>
      rcases p with ⟨t1, db1⟩
      exact ⟨t1, db1, rfl⟩
    | error e =>
      unfold Dispatch.approve_task at hres
      rw [hf] at hres
      cases hres

/-- C3 witness: promoting suggestion 5 (from 1, to 2, qty 4, reason "x")
creates a ready task copying those fields and removes the suggestion, and
promoting a nonexistent suggestion 9999 fails and changes nothing. -/
theorem approve_task_claim_witness :
    (Dispatch.approve_task 9999
        ⟨[⟨5, 1, 2, 4, "x", 0⟩], [], 7, 3⟩ =
      Except.error (Dispatch.ApiError.suggestionNotFound 9999) ∧
      Dispatch.applyOp (Dispatch.Op.approve 9999)
        ⟨[⟨5, 1, 2, 4, "x", 0⟩], [], 7, 3⟩ = ⟨[⟨5, 1, 2, 4, "x", 0⟩], [], 7, 3⟩) ∧
    (∃ s, s ∈ ([⟨5, 1, 2, 4, "x", 0⟩] : List Dispatch.Suggestion) ∧ s.id = 5 ∧
      (⟨7, 1, 2, 4, some "x", Dispatch.TaskStatus.ready, none, 3⟩ :
          Dispatch.Task).from_station_id = s.from_station_id ∧
      (⟨7, 1, 2, 4, some "x", Dispatch.TaskStatus.ready, none, 3⟩ :
          Dispatch.Task).to_station_id = s.to_station_id ∧
      (⟨7, 1, 2, 4, some "x", Dispatch.TaskStatus.ready, none, 3⟩ :
          Dispatch.Task).qty = s.qty ∧
      (⟨7, 1, 2, 4, some "x", Dispatch.TaskStatus.ready, none, 3⟩ :
          Dispatch.Task).reason = some s.reason ∧
      (⟨7, 1, 2, 4, some "x", Dispatch.TaskStatus.ready, none, 3⟩ :
          Dispatch.Task).status = Dispatch.TaskStatus.ready ∧
      (⟨7, 1, 2, 4, some "x", Dispatch.TaskStatus.ready, none, 3⟩ :
          Dispatch.Task).worker_id = none ∧
      (⟨[], [⟨7, 1, 2, 4, some "x", Dispatch.TaskStatus.ready, none, 3⟩], 8, 3⟩ :
          Dispatch.DB).tasks =
        [] ++ [⟨7, 1, 2, 4, some "x", Dispatch.TaskStatus.ready, none, 3⟩] ∧
      (⟨[], [⟨7, 1, 2, 4, some "x", Dispatch.TaskStatus.ready, none, 3⟩], 8, 3⟩ :
          Dispatch.DB).suggestions =
        ([⟨5, 1, 2, 4, "x", 0⟩] : List Dispatch.Suggestion).eraseP
          (fun x => decide (x.id = 5)) ∧
      ((([⟨5, 1, 2, 4, "x", 0⟩] : List Dispatch.Suggestion).map
          Dispatch.Suggestion.id).Nodup →
        ∀ x ∈ (⟨[], [⟨7, 1, 2, 4, some "x", Dispatch.TaskStatus.ready, none, 3⟩],
            8, 3⟩ : Dispatch.DB).suggestions, x.id ≠ 5)) :=
  ⟨(approve_task_claim 9999 ⟨[⟨5, 1, 2, 4, "x", 0⟩], [], 7, 3⟩).1
      (by intro s hs; rw [List.mem_singleton] at hs; subst hs; decide),
    (approve_task_claim 5 ⟨[⟨5, 1, 2, 4, "x", 0⟩], [], 7, 3⟩).2.1
      ⟨7, 1, 2, 4, some "x", Dispatch.TaskStatus.ready, none, 3⟩
      ⟨[], [⟨7, 1, 2, 4, some "x", Dispatch.TaskStatus.ready, none, 3⟩], 8, 3⟩ rfl⟩

/-- C10: claim and complete mutate only the one row they select: for claim
the row's status becomes assigned and its worker_id the caller's, for
complete the row's status becomes completed and its worker_id is untouched
(so a still-ready task keeps worker_id null); all other task fields, all
other rows, the suggestions table, the id counter and the clock are
unchanged. -/
theorem dispatch_frame_effects (w : String) (tid : Nat) (db : Dispatch.DB) :
    (∀ t' db', Dispatch.dispatch_next w db = Except.ok (t', db') →
      ∃ i t, db.tasks[i]? = some t ∧
        db'.suggestions = db.suggestions ∧
        db'.next_task_id = db.next_task_id ∧ db'.now = db.now ∧
        db'.tasks = db.tasks.set i t' ∧
        (∀ j, j ≠ i → db'.tasks[j]? = db.tasks[j]?) ∧
        t'.id = t.id ∧ t'.from_station_id = t.from_station_id ∧
        t'.to_station_id = t.to_station_id ∧ t'.qty = t.qty ∧
        t'.reason = t.reason ∧ t'.created_at = t.created_at ∧
        t'.status = Dispatch.TaskStatus.assigned ∧ t'.worker_id = some w) ∧
    (∀ t' db', Dispatch.complete_task tid db = Except.ok (t', db') →
      ∃ i t, db.tasks[i]? = some t ∧
        db'.suggestions = db.suggestions ∧
        db'.next_task_id = db.next_task_id ∧ db'.now = db.now ∧
        db'.tasks = db.tasks.set i t' ∧
        (∀ j, j ≠ i → db'.tasks[j]? = db.tasks[j]?) ∧
        t'.id = t.id ∧ t'.from_station_id = t.from_station_id ∧
        t'.to_station_id = t.to_station_id ∧ t'.qty = t.qty ∧
        t'.reason = t.reason ∧ t'.created_at = t.created_at ∧
        t'.status = Dispatch.TaskStatus.completed ∧
        t'.worker_id = t.worker_id ∧
        (t.status = Dispatch.TaskStatus.ready → t.worker_id = none →
          t'.worker_id = none)) := by
  constructor
  · intro t' db' hok
    obtain ⟨i, t, _, hget, _, ht', hdb'⟩ := Dispatch.dispatch_ok_inv hok
    subst ht'
    subst hdb'
    refine ⟨i, t, hget, rfl, rfl, rfl, rfl, ?_, rfl, rfl, rfl, rfl, rfl, rfl,
      rfl, rfl⟩
    intro j hj
    exact List.getElem?_set_ne fun h => hj h.symm
  · intro t' db' hok
    obtain ⟨i, t, hget, _, ht', hdb'⟩ := Dispatch.complete_ok_inv hok
    subst ht'
    subst hdb'
    refine ⟨i, t, hget, rfl, rfl, rfl, rfl, ?_, rfl, rfl, rfl, rfl, rfl, rfl,
      rfl, rfl, fun _ hw => hw⟩
    intro j hj
    exact List.getElem?_set_ne fun h => hj h.symm

/-- C10 witness: both frame conclusions on concrete one-task states. -/
theorem dispatch_frame_effects_witness :
    (∃ i t, ([⟨1, 4, 5, 3, none, Dispatch.TaskStatus.ready, none, 10⟩] :
        List Dispatch.Task)[i]? = some t ∧
      ((⟨[⟨9, 1, 2, 3, "r", 0⟩],
          [⟨1, 4, 5, 3, none, Dispatch.TaskStatus.assigned, some "w2", 10⟩], 2, 0⟩ :
        Dispatch.DB)).suggestions = [⟨9, 1, 2, 3, "r", 0⟩] ∧
      ((⟨[⟨9, 1, 2, 3, "r", 0⟩],
          [⟨1, 4, 5, 3, none, Dispatch.TaskStatus.assigned, some "w2", 10⟩], 2, 0⟩ :
        Dispatch.DB)).next_task_id = 2 ∧
      ((⟨[⟨9, 1, 2, 3, "r", 0⟩],
          [⟨1, 4, 5, 3, none, Dispatch.TaskStatus.assigned, some "w2", 10⟩], 2, 0⟩ :
        Dispatch.DB)).now = 0 ∧
      ((⟨[⟨9, 1, 2, 3, "r", 0⟩],
          [⟨1, 4, 5, 3, none, Dispatch.TaskStatus.assigned, some "w2", 10⟩], 2, 0⟩ :
        Dispatch.DB)).tasks =
        [⟨1, 4, 5, 3, none, Dispatch.TaskStatus.ready, none, 10⟩].set i
          (⟨1, 4, 5, 3, none, Dispatch.TaskStatus.assigned, some "w2", 10⟩ :
            Dispatch.Task) ∧
      (∀ j, j ≠ i →
        ((⟨[⟨9, 1, 2, 3, "r", 0⟩],
            [⟨1, 4, 5, 3, none, Dispatch.TaskStatus.assigned, some "w2", 10⟩], 2, 0⟩ :
          Dispatch.DB)).tasks[j]? =
          ([⟨1, 4, 5, 3, none, Dispatch.TaskStatus.ready, none, 10⟩] :
            List Dispatch.Task)[j]?) ∧
      (⟨1, 4, 5, 3, none, Dispatch.TaskStatus.assigned, some "w2", 10⟩ :
          Dispatch.Task).id = t.id ∧
      (⟨1, 4, 5, 3, none, Dispatch.TaskStatus.assigned, some "w2", 10⟩ :
          Dispatch.Task).from_station_id = t.from_station_id ∧
      (⟨1, 4, 5, 3, none, Dispatch.TaskStatus.assigned, some "w2", 10⟩ :
          Dispatch.Task).to_station_id = t.to_station_id ∧
      (⟨1, 4, 5, 3, none, Dispatch.TaskStatus.assigned, some "w2", 10⟩ :
          Dispatch.Task).qty = t.qty ∧
      (⟨1, 4, 5, 3, none, Dispatch.TaskStatus.assigned, some "w2", 10⟩ :
          Dispatch.Task).reason = t.reason ∧
      (⟨1, 4, 5, 3, none, Dispatch.TaskStatus.assigned, some "w2", 10⟩ :
          Dispatch.Task).created_at = t.created_at ∧
      (⟨1, 4, 5, 3, none, Dispatch.TaskStatus.assigned, some "w2", 10⟩ :
          Dispatch.Task).status = Dispatch.TaskStatus.assigned ∧
      (⟨1, 4, 5, 3, none, Dispatch.TaskStatus.assigned, some "w2", 10⟩ :
          Dispatch.Task).worker_id = some "w2") ∧
    (∃ i t, ([⟨1, 4, 5, 3, none, Dispatch.TaskStatus.ready, none, 10⟩] :
        List Dispatch.Task)[i]? = some t ∧
      ((⟨[⟨9, 1, 2, 3, "r", 0⟩],
          [⟨1, 4, 5, 3, none, Dispatch.TaskStatus.completed, none, 10⟩], 2, 0⟩ :
        Dispatch.DB)).suggestions = [⟨9, 1, 2, 3, "r", 0⟩] ∧
      ((⟨[⟨9, 1, 2, 3, "r", 0⟩],
          [⟨1, 4, 5, 3, none, Dispatch.TaskStatus.completed, none, 10⟩], 2, 0⟩ :
        Dispatch.DB)).next_task_id = 2 ∧
      ((⟨[⟨9, 1, 2, 3, "r", 0⟩],
          [⟨1, 4, 5, 3, none, Dispatch.TaskStatus.completed, none, 10⟩], 2, 0⟩ :
        Dispatch.DB)).now = 0 ∧
      ((⟨[⟨9, 1, 2, 3, "r", 0⟩],
          [⟨1, 4, 5, 3, none, Dispatch.TaskStatus.completed, none, 10⟩], 2, 0⟩ :
        Dispatch.DB)).tasks =
        [⟨1, 4, 5, 3, none, Dispatch.TaskStatus.ready, none, 10⟩].set i
          (⟨1, 4, 5, 3, none, Dispatch.TaskStatus.completed, none, 10⟩ :
            Dispatch.Task) ∧
      (∀ j, j ≠ i →
        ((⟨[⟨9, 1, 2, 3, "r", 0⟩],
            [⟨1, 4, 5, 3, none, Dispatch.TaskStatus.completed, none, 10⟩], 2, 0⟩ :
          Dispatch.DB)).tasks[j]? =
          ([⟨1, 4, 5, 3, none, Dispatch.TaskStatus.ready, none, 10⟩] :
            List Dispatch.Task)[j]?) ∧
      (⟨1, 4, 5, 3, none, Dispatch.TaskStatus.completed, none, 10⟩ :
          Dispatch.Task).id = t.id ∧
      (⟨1, 4, 5, 3, none, Dispatch.TaskStatus.completed, none, 10⟩ :
          Dispatch.Task).from_station_id = t.from_station_id ∧
      (⟨1, 4, 5, 3, none, Dispatch.TaskStatus.completed, none, 10⟩ :
          Dispatch.Task).to_station_id = t.to_station_id ∧
      (⟨1, 4, 5, 3, none, Dispatch.TaskStatus.completed, none, 10⟩ :
          Dispatch.Task).qty = t.qty ∧
      (⟨1, 4, 5, 3, none, Dispatch.TaskStatus.completed, none, 10⟩ :
          Dispatch.Task).reason = t.reason ∧
      (⟨1, 4, 5, 3, none, Dispatch.TaskStatus.completed, none, 10⟩ :
          Dispatch.Task).created_at = t.created_at ∧
      (⟨1, 4, 5, 3, none, Dispatch.TaskStatus.completed, none, 10⟩ :
          Dispatch.Task).status = Dispatch.TaskStatus.completed ∧
      (⟨1, 4, 5, 3, none, Dispatch.TaskStatus.completed, none, 10⟩ :
          Dispatch.Task).worker_id = t.worker_id ∧
      (t.status = Dispatch.TaskStatus.ready → t.worker_id = none →
        (⟨1, 4, 5, 3, none, Dispatch.TaskStatus.completed, none, 10⟩ :
          Dispatch.Task).worker_id = none)) :=
  ⟨(dispatch_frame_effects "w2" 1
      ⟨[⟨9, 1, 2, 3, "r", 0⟩],
        [⟨1, 4, 5, 3, none, Dispatch.TaskStatus.ready, none, 10⟩], 2, 0⟩).1
      ⟨1, 4, 5, 3, none, Dispatch.TaskStatus.assigned, some "w2", 10⟩
      ⟨[⟨9, 1, 2, 3, "r", 0⟩],
        [⟨1, 4, 5, 3, none, Dispatch.TaskStatus.assigned, some "w2", 10⟩], 2, 0⟩ rfl,
    (dispatch_frame_effects "w2" 1
      ⟨[⟨9, 1, 2, 3, "r", 0⟩],
        [⟨1, 4, 5, 3, none, Dispatch.TaskStatus.ready, none, 10⟩], 2, 0⟩).2
      ⟨1, 4, 5, 3, none, Dispatch.TaskStatus.completed, none, 10⟩
      ⟨[⟨9, 1, 2, 3, "r", 0⟩],
        [⟨1, 4, 5, 3, none, Dispatch.TaskStatus.completed, none, 10⟩], 2, 0⟩ rfl⟩

/-- C4 counterexample: `complete` on a still-ready task performs the status
transition ready→completed, which is a transition between distinct statuses
other than ready→assigned and assigned→completed. -/
theorem task_transitions_claim_counterexample :
    Dispatch.complete_task 1
        ⟨[], [⟨1, 4, 5, 3, none, Dispatch.TaskStatus.ready, none, 0⟩], 2, 0⟩ =
      Except.ok (⟨1, 4, 5, 3, none, Dispatch.TaskStatus.completed, none, 0⟩,
        ⟨[], [⟨1, 4, 5, 3, none, Dispatch.TaskStatus.completed, none, 0⟩], 2, 0⟩) ∧
    Dispatch.TaskStatus.ready ≠ Dispatch.TaskStatus.completed ∧
    ¬((Dispatch.TaskStatus.ready, Dispatch.TaskStatus.completed) =
        (Dispatch.TaskStatus.ready, Dispatch.TaskStatus.assigned) ∨
      (Dispatch.TaskStatus.ready, Dispatch.TaskStatus.completed) =
        (Dispatch.TaskStatus.assigned, Dispatch.TaskStatus.completed)) :=
  ⟨rfl, by decide, by decide⟩

/-- C4 (amended): a single dispatch operation (promote, claim or complete)
either leaves a task's status unchanged or performs exactly one of:
ready→assigned (claim), assigned→completed (complete), or ready→completed
(complete on a still-ready task); no other transition between distinct
statuses is reachable. -/
theorem task_status_transitions (op : Dispatch.Op) (db : Dispatch.DB) (i : Nat)
    (t t' : Dispatch.Task) (hb : db.tasks[i]? = some t)
    (ha : (Dispatch.applyOp op db).tasks[i]? = some t') :
    t.status = t'.status ∨
    (t.status = Dispatch.TaskStatus.ready ∧
      t'.status = Dispatch.TaskStatus.assigned) ∨
    (t.status = Dispatch.TaskStatus.assigned ∧
      t'.status = Dispatch.TaskStatus.completed) ∨
    (t.status = Dispatch.TaskStatus.ready ∧
      t'.status = Dispatch.TaskStatus.completed) := by
  cases op with
  | approve sid =>
    cases hres : Dispatch.approve_task sid db with
    | error e =>
      rw [Dispatch.applyOp_of_error ((Dispatch.opResult_approve sid db).trans hres),
        hb] at ha
      cases ha
      exact Or.inl rfl
    | ok p =>
      rcases p with ⟨t1, db1⟩
      rw [Dispatch.applyOp_of_ok ((Dispatch.opResult_approve sid db).trans hres)] at ha
      obtain ⟨htasks, _⟩ := Dispatch.approve_ok_inv hres
      have hlt : i < db.tasks.length := (List.getElem?_eq_some_iff.1 hb).1
      rw [htasks, List.getElem?_append_left hlt, hb] at ha
      cases ha
      exact Or.inl rfl
  | dispatch w =>
    cases hres : Dispatch.dispatch_next w db with
    | error e =>
      rw [Dispatch.applyOp_of_error ((Dispatch.opResult_dispatch w db).trans hres),
        hb] at ha
      cases ha
      exact Or.inl rfl
    | ok p =>
      rcases p with ⟨t1, db1⟩
      rw [Dispatch.applyOp_of_ok ((Dispatch.opResult_dispatch w db).trans hres)] at ha
      obtain ⟨j, u, hsel, hget, hready, ht1, hdb1⟩ := Dispatch.dispatch_ok_inv hres
      rw [hdb1] at ha
      by_cases hij : i = j
      · subst hij
        have hlt : i < db.tasks.length := (List.getElem?_eq_some_iff.1 hb).1
        rw [List.getElem?_set_self hlt] at ha
        cases ha
        rw [hb] at hget
        cases hget
        exact Or.inr (Or.inl ⟨hready, by rw [ht1]⟩)
      · rw [List.getElem?_set_ne (fun h => hij h.symm), hb] at ha
        cases ha
        exact Or.inl rfl
  | complete tid =>
    cases hres : Dispatch.complete_task tid db with
    | error e =>
      rw [Dispatch.applyOp_of_error ((Dispatch.opResult_complete tid db).trans hres),
        hb] at ha
      cases ha
      exact Or.inl rfl
    | ok p =>
      rcases p with ⟨t1, db1⟩
      rw [Dispatch.applyOp_of_ok ((Dispatch.opResult_complete tid db).trans hres)] at ha
      obtain ⟨j, u, hget, hid, ht1, hdb1⟩ := Dispatch.complete_ok_inv hres
      rw [hdb1] at ha
      by_cases hij : i = j
      · subst hij
        have hlt : i < db.tasks.length := (List.getElem?_eq_some_iff.1 hb).1
        rw [List.getElem?_set_self hlt] at ha
        cases ha
        rw [hb] at hget
        cases hget
        cases hst : t.status with
        | ready => exact Or.inr (Or.inr (Or.inr ⟨rfl, by rw [ht1]⟩))
        | assigned => exact Or.inr (Or.inr (Or.inl ⟨rfl, by rw [ht1]⟩))
        | completed => exact Or.inl (by rw [ht1])
      · rw [List.getElem?_set_ne (fun h => hij h.symm), hb] at ha
        cases ha
        exact Or.inl rfl

/-- C4 witness: the amended transition relation instantiated on a complete
call against a still-ready task. -/
theorem task_status_transitions_witness :
    (⟨1, 4, 5, 3, none, Dispatch.TaskStatus.ready, none, 0⟩ :
        Dispatch.Task).status =
      (⟨1, 4, 5, 3, none, Dispatch.TaskStatus.completed, none, 0⟩ :
        Dispatch.Task).status ∨
    ((⟨1, 4, 5, 3, none, Dispatch.TaskStatus.ready, none, 0⟩ :
        Dispatch.Task).status = Dispatch.TaskStatus.ready ∧
      (⟨1, 4, 5, 3, none, Dispatch.TaskStatus.completed, none, 0⟩ :
        Dispatch.Task).status = Dispatch.TaskStatus.assigned) ∨
    ((⟨1, 4, 5, 3, none, Dispatch.TaskStatus.ready, none, 0⟩ :
        Dispatch.Task).status = Dispatch.TaskStatus.assigned ∧
      (⟨1, 4, 5, 3, none, Dispatch.TaskStatus.completed, none, 0⟩ :
        Dispatch.Task).status = Dispatch.TaskStatus.completed) ∨
    ((⟨1, 4, 5, 3, none, Dispatch.TaskStatus.ready, none, 0⟩ :
        Dispatch.Task).status = Dispatch.TaskStatus.ready ∧
      (⟨1, 4, 5, 3, none, Dispatch.TaskStatus.completed, none, 0⟩ :
        Dispatch.Task).status = Dispatch.TaskStatus.completed) :=
  task_status_transitions (Dispatch.Op.complete 1)
    ⟨[], [⟨1, 4, 5, 3, none, Dispatch.TaskStatus.ready, none, 0⟩], 2, 0⟩ 0
    ⟨1, 4, 5, 3, none, Dispatch.TaskStatus.ready, none, 0⟩
    ⟨1, 4, 5, 3, none, Dispatch.TaskStatus.completed, none, 0⟩ rfl rfl

namespace Dispatch

/-- Position of a status in the lifecycle order ready, assigned,
completed. -/
def statusRank : TaskStatus → Nat
  | TaskStatus.ready => 0
  | TaskStatus.assigned => 1
  | TaskStatus.completed => 2

/-- Invariant of reachable task tables: ids are distinct and below the
auto-increment counter, and a still-ready task has no worker recorded. -/
def TasksOk (db : DB) : Prop :=
  (db.tasks.map Task.id).Nodup ∧
  (∀ t ∈ db.tasks, t.id < db.next_task_id) ∧
  (∀ t ∈ db.tasks, t.status = TaskStatus.ready → t.worker_id = none)

theorem set_getElem_eq {α : Type} {l : List α} {j : Nat} {a : α}
    (h : l[j]? = some a) : l.set j a = l := by
  induction l generalizing j with
  | nil => cases h
  | cons c l ih =>
    cases j with
    | zero =>
      simp only [List.getElem?_cons_zero, Option.some_inj] at h
      rw [h]
      rfl
    | succ j =>
      simp only [List.getElem?_cons_succ] at h
      rw [List.set_cons_succ, ih h]

theorem applyOp_mono (op : Op) (db : DB) (hok : TasksOk db) :
    ∀ t ∈ db.tasks, ∃ u ∈ (applyOp op db).tasks, u.id = t.id ∧
      statusRank t.status ≤ statusRank u.status ∧
      (∀ w, t.worker_id = some w → u.worker_id = some w) := by
  intro t ht
  cases op with
  | approve sid =>
    cases hres : approve_task sid db with
    | error e =>
      rw [applyOp_of_error ((opResult_approve sid db).trans hres)]
      exact ⟨t, ht, rfl, le_refl _, fun w hw => hw⟩
    | ok p =>
      rcases p with ⟨t1, db1⟩
      rw [applyOp_of_ok ((opResult_approve sid db).trans hres)]
      obtain ⟨htasks, _⟩ := approve_ok_inv hres
      rw [htasks]
      exact ⟨t, List.mem_append_left _ ht, rfl, le_refl _, fun w hw => hw⟩
  | dispatch w =>
    cases hres : dispatch_next w db with
    | error e =>
      rw [applyOp_of_error ((opResult_dispatch w db).trans hres)]
      exact ⟨t, ht, rfl, le_refl _, fun w hw => hw⟩
    | ok p =>
      rcases p with ⟨t1, db1⟩
      rw [applyOp_of_ok ((opResult_dispatch w db).trans hres)]
      obtain ⟨j, u0, hsel, hget, hready, ht1, hdb1⟩ := dispatch_ok_inv hres
      rw [hdb1]
      obtain ⟨k, hk⟩ := List.mem_iff_getElem?.1 ht
      by_cases hkj : k = j
      · subst hkj
        rw [hk] at hget
        cases hget
        have hlt : k < db.tasks.length := (List.getElem?_eq_some_iff.1 hk).1
        refine ⟨t1, List.mem_iff_getElem?.2 ⟨k, by
          show (db.tasks.set k t1)[k]? = some t1
          exact List.getElem?_set_self hlt⟩, ?_, ?_, ?_⟩
        · rw [ht1]
        · rw [ht1, hready]
          exact Nat.zero_le _
        · intro w0 hw0
          exact absurd hw0 (by rw [hok.2.2 t ht hready]; intro hc; cases hc)
      · refine ⟨t, List.mem_iff_getElem?.2 ⟨k, ?_⟩, rfl, le_refl _, fun w hw => hw⟩
        show (db.tasks.set j t1)[k]? = some t
        rw [List.getElem?_set_ne (fun h => hkj h.symm)]
        exact hk
  | complete tid =>
    cases hres : complete_task tid db with
    | error e =>
      rw [applyOp_of_error ((opResult_complete tid db).trans hres)]
      exact ⟨t, ht, rfl, le_refl _, fun w hw => hw⟩
    | ok p =>
      rcases p with ⟨t1, db1⟩
      rw [applyOp_of_ok ((opResult_complete tid db).trans hres)]
      obtain ⟨j, u0, hget, hid, ht1, hdb1⟩ := complete_ok_inv hres
      rw [hdb1]
      obtain ⟨k, hk⟩ := List.mem_iff_getElem?.1 ht
      by_cases hkj : k = j
      · subst hkj
        rw [hk] at hget
        cases hget
        have hlt : k < db.tasks.length := (List.getElem?_eq_some_iff.1 hk).1
        refine ⟨t1, List.mem_iff_getElem?.2 ⟨k, by
          show (db.tasks.set k t1)[k]? = some t1
          exact List.getElem?_set_self hlt⟩, ?_, ?_, ?_⟩
        · rw [ht1]
        · rw [ht1]
          show statusRank t.status ≤ 2
          cases t.status <;> simp [statusRank]
        · intro w0 hw0
          rw [ht1]
          exact hw0
      · refine ⟨t, List.mem_iff_getElem?.2 ⟨k, ?_⟩, rfl, le_refl _, fun w hw => hw⟩
        show (db.tasks.set j t1)[k]? = some t
        rw [List.getElem?_set_ne (fun h => hkj h.symm)]
        exact hk

theorem applyOp_tasksOk (op : Op) (db : DB) (hok : TasksOk db) :
    TasksOk (applyOp op db) := by
  obtain ⟨hnd, hbound, hworker⟩ := hok
  cases op with
  | approve sid =>
    cases hres : approve_task sid db with
    | error e =>
      rw [applyOp_of_error ((opResult_approve sid db).trans hres)]
      exact ⟨hnd, hbound, hworker⟩
    | ok p =>
      rcases p with ⟨t1, db1⟩
      rw [applyOp_of_ok ((opResult_approve sid db).trans hres)]
      obtain ⟨htasks, _, hnext, _, hstatus, hwid, hid1, _⟩ := approve_ok_inv hres
      refine ⟨?_, ?_, ?_⟩
      · rw [htasks, List.map_append]
        rw [List.nodup_append]
        refine ⟨hnd, List.nodup_singleton _, ?_⟩
        intro x hx
        simp only [List.map_cons, List.map_nil, List.mem_singleton]
        intro hx1
        obtain ⟨u, hu, hux⟩ := List.mem_map.1 hx
        have : x < db.next_task_id := hux ▸ hbound u hu
        rw [hx1, hid1] at this
        exact absurd this (lt_irrefl _)
      · intro u hu
        rw [htasks] at hu
        rw [hnext]
        rcases List.mem_append.1 hu with hu | hu
        · exact Nat.lt_succ_of_lt (hbound u hu)
        · rw [List.mem_singleton.1 hu, hid1]
          exact Nat.lt_succ_self _
      · intro u hu hur
        rw [htasks] at hu
        rcases List.mem_append.1 hu with hu | hu
        · exact hworker u hu hur
        · rw [List.mem_singleton.1 hu]
          exact hwid
  | dispatch w =>
    cases hres : dispatch_next w db with
    | error e =>
      rw [applyOp_of_error ((opResult_dispatch w db).trans hres)]
      exact ⟨hnd, hbound, hworker⟩
    | ok p =>
      rcases p with ⟨t1, db1⟩
      rw [applyOp_of_ok ((opResult_dispatch w db).trans hres)]
      obtain ⟨j, u0, hsel, hget, hready, ht1, hdb1⟩ := dispatch_ok_inv hres
      rw [hdb1]
      have hu0 : u0 ∈ db.tasks := List.mem_iff_getElem?.2 ⟨j, hget⟩
      have hidmap : ((db.tasks.set j t1).map Task.id) = db.tasks.map Task.id := by
        rw [List.map_set]
        apply set_getElem_eq
        rw [List.getElem?_map, hget, ht1]
        rfl
      refine ⟨?_, ?_, ?_⟩
      · rw [hidmap]
        exact hnd
      · intro u hu
        rcases List.mem_or_eq_of_mem_set hu with hu | hu
        · exact hbound u hu
        · rw [hu, ht1]
          exact hbound u0 hu0
      · intro u hu hur
        rcases List.mem_or_eq_of_mem_set hu with hu | hu
        · exact hworker u hu hur
        · rw [hu, ht1] at hur
          cases hur
  | complete tid =>
    cases hres : complete_task tid db with
    | error e =>
      rw [applyOp_of_error ((opResult_complete tid db).trans hres)]
      exact ⟨hnd, hbound, hworker⟩
    | ok p =>
      rcases p with ⟨t1, db1⟩
      rw [applyOp_of_ok ((opResult_complete tid db).trans hres)]
      obtain ⟨j, u0, hget, hid, ht1, hdb1⟩ := complete_ok_inv hres
      rw [hdb1]
      have hu0 : u0 ∈ db.tasks := List.mem_iff_getElem?.2 ⟨j, hget⟩
      have hidmap : ((db.tasks.set j t1).map Task.id) = db.tasks.map Task.id := by
        rw [List.map_set]
        apply set_getElem_eq
        rw [List.getElem?_map, hget, ht1]
        rfl
      refine ⟨?_, ?_, ?_⟩
      · rw [hidmap]
        exact hnd
      · intro u hu
        rcases List.mem_or_eq_of_mem_set hu with hu | hu
        · exact hbound u hu
        · rw [hu, ht1]
          exact hbound u0 hu0
      · intro u hu hur
        rcases List.mem_or_eq_of_mem_set hu with hu | hu
        · exact hworker u hu hur
        · rw [hu, ht1] at hur
          cases hur

end Dispatch

/-- C9: under every sequence of promote, claim and complete calls starting
from a well-formed state, each task's status only moves forward in the
order ready, assigned, completed (re-completion included) and never
regresses, and a recorded worker is never replaced: once some worker owns a
task, every later state shows the same worker. -/
theorem task_lifecycle_monotone (ops : List Dispatch.Op) (db : Dispatch.DB)
    (hok : Dispatch.TasksOk db) :
    ∀ t ∈ db.tasks, ∀ t' ∈ (Dispatch.run ops db).tasks, t'.id = t.id →
      Dispatch.statusRank t.status ≤ Dispatch.statusRank t'.status ∧
      (∀ w, t.worker_id = some w → t'.worker_id = some w) := by
  induction ops generalizing db with
  | nil =>
    intro t ht t' ht' hid
    have : t' = t := List.inj_on_of_nodup_map hok.1 ht' ht hid
    rw [this]
    exact ⟨le_refl _, fun w hw => hw⟩
  | cons op ops ih =>
    intro t ht t' ht' hid
    obtain ⟨u, hu, huid, hrank, hworker⟩ := Dispatch.applyOp_mono op db hok t ht
    have hok2 := Dispatch.applyOp_tasksOk op db hok
    have hrun : Dispatch.run (op :: ops) db = Dispatch.run ops (Dispatch.applyOp op db) := rfl
    rw [hrun] at ht'
    obtain ⟨hrank2, hworker2⟩ :=
      ih (Dispatch.applyOp op db) hok2 u hu t' ht' (by rw [hid, ← huid])
    exact ⟨le_trans hrank hrank2, fun w hw => hworker2 w (hworker w hw)⟩

/-- C9 witness: the lifecycle bound instantiated on a claim followed by a
complete against a concrete one-task queue. -/
theorem task_lifecycle_monotone_witness :
    Dispatch.statusRank (⟨1, 4, 5, 3, none, Dispatch.TaskStatus.ready, none, 10⟩ :
        Dispatch.Task).status ≤
      Dispatch.statusRank
        (⟨1, 4, 5, 3, none, Dispatch.TaskStatus.completed, some "w3", 10⟩ :
          Dispatch.Task).status ∧
    (∀ w, (⟨1, 4, 5, 3, none, Dispatch.TaskStatus.ready, none, 10⟩ :
        Dispatch.Task).worker_id = some w →
      (⟨1, 4, 5, 3, none, Dispatch.TaskStatus.completed, some "w3", 10⟩ :
        Dispatch.Task).worker_id = some w) :=
  task_lifecycle_monotone [Dispatch.Op.dispatch "w3", Dispatch.Op.complete 1]
    ⟨[], [⟨1, 4, 5, 3, none, Dispatch.TaskStatus.ready, none, 10⟩], 2, 0⟩
    ⟨by decide, by decide, by decide⟩
    ⟨1, 4, 5, 3, none, Dispatch.TaskStatus.ready, none, 10⟩ (by decide)
    ⟨1, 4, 5, 3, none, Dispatch.TaskStatus.completed, some "w3", 10⟩ (by decide) rfl

namespace Matcher

/-- A row of `forecast_with_geom` in `build_suggestions.py`: the latest
forecast joined with the station's capacity; geometry is represented by the
station id, with the `ST_Distance` of two geometries supplied as a distance
function on station ids. -/
structure ForecastRow where
  station_id : Nat
  predicted_bikes_15m : Int
  risk_status : RiskStatus
  capacity : Int
deriving DecidableEq, Repr

/-- `ROUND(capacity * 0.5)::int`, the dynamic 50% target level. -/
def target_level (r : ForecastRow) : Int := sqlRound ((r.capacity : ℚ) * (1 / 2))

/-- An `all_sources`/`all_sinks` entry: station, `available_to_give` or
`needed`, and priority (1 primary, 2 fallback). -/
structure Cand where
  station_id : Nat
  amount : Int
  priority : Nat
deriving DecidableEq, Repr

/-- `sources_primary`: full_soon stations above their target. -/
def sources_primary (rows : List ForecastRow) : List Cand :=
  (rows.filter fun r => decide (r.risk_status = RiskStatus.full_soon ∧
    target_level r < r.predicted_bikes_15m)).map
    fun r => ⟨r.station_id, max 0 (r.predicted_bikes_15m - target_level r), 1⟩

/-- `sources_fallback`: balanced stations above their target. -/
def sources_fallback (rows : List ForecastRow) : List Cand :=
  (rows.filter fun r => decide (r.risk_status = RiskStatus.balanced ∧
    target_level r < r.predicted_bikes_15m)).map
    fun r => ⟨r.station_id, max 0 (r.predicted_bikes_15m - target_level r), 2⟩

/-- `all_sources`: primary sources `UNION ALL` fallback sources. -/
def all_sources (rows : List ForecastRow) : List Cand :=
  sources_primary rows ++ sources_fallback rows

/-- `sinks_primary`: empty_soon stations below their target. -/
def sinks_primary (rows : List ForecastRow) : List Cand :=
  (rows.filter fun r => decide (r.risk_status = RiskStatus.empty_soon ∧
    r.predicted_bikes_15m < target_level r)).map
    fun r => ⟨r.station_id, max 0 (target_level r - r.predicted_bikes_15m), 1⟩

/-- `sinks_fallback`: balanced stations below their target. -/
def sinks_fallback (rows : List ForecastRow) : List Cand :=
  (rows.filter fun r => decide (r.risk_status = RiskStatus.balanced ∧
    r.predicted_bikes_15m < target_level r)).map
    fun r => ⟨r.station_id, max 0 (target_level r - r.predicted_bikes_15m), 2⟩

/-- `all_sinks`: primary sinks `UNION ALL` fallback sinks. -/
def all_sinks (rows : List ForecastRow) : List Cand :=
  sinks_primary rows ++ sinks_fallback rows

/-- A `source_sink_pairs` row. -/
structure Pair where
  from_station_id : Nat
  to_station_id : Nat
  available_to_give : Int
  needed : Int
  move_count : Int
  distance_m : ℚ
  sink_priority : Nat
deriving DecidableEq, Repr

/-- The `CROSS JOIN` rows of `source_sink_pairs` for one source: every sink
within `max_distance` and different from the source, with
`move_count = LEAST(available_to_give, needed)`. -/
def pairsFor (d : Nat → Nat → ℚ) (maxd : ℚ) (snks : List Cand) (src : Cand) :
    List Pair :=
  snks.filterMap fun k =>
    if d src.station_id k.station_id ≤ maxd ∧ src.station_id ≠ k.station_id then
      some ⟨src.station_id, k.station_id, src.amount, k.amount,
        min src.amount k.amount, d src.station_id k.station_id, k.priority⟩
    else none

/-- Strict lexicographic order on (sink priority, distance), the `ORDER BY`
of the `ROW_NUMBER` window. -/
def betterPair (q p : Pair) : Prop :=
  q.sink_priority < p.sink_priority ∨
    (q.sink_priority = p.sink_priority ∧ q.distance_m < p.distance_m)

instance (q p : Pair) : Decidable (betterPair q p) :=
  inferInstanceAs (Decidable (_ ∨ _))

/-- The `rn = 1` row of a partition: the minimum under (priority, distance),
keeping the earlier row on ties (the SQL tie order is arbitrary; the model
fixes row order). -/
def bestPair : List Pair → Option Pair
  | [] => none
  | p :: ps => some (ps.foldl (fun b q => if betterPair q b then q else b) p)

/-- `ranked_pairs`: for each source the `rn = 1` pair, kept when
`move_count > 0`; these rows are inserted into `rebalancing_jobs`. -/
def ranked_pairs (d : Nat → Nat → ℚ) (maxd : ℚ) (rows : List ForecastRow) :
    List Pair :=
  (all_sources rows).filterMap fun src =>
    match bestPair (pairsFor d maxd (all_sinks rows) src) with
    | none => none
    | some p => if 0 < p.move_count then some p else none

/-- Non-strict lexicographic order on (sink priority, distance). -/
def lexLe (p q : Pair) : Prop :=
  p.sink_priority < q.sink_priority ∨
    (p.sink_priority = q.sink_priority ∧ p.distance_m ≤ q.distance_m)

theorem lexLe_refl (p : Pair) : lexLe p p := Or.inr ⟨rfl, le_refl _⟩

theorem lexLe_trans {p q r : Pair} (h1 : lexLe p q) (h2 : lexLe q r) :
    lexLe p r := by
  rcases h1 with h1 | ⟨h1, h1d⟩
  · rcases h2 with h2 | ⟨h2, _⟩
    · exact Or.inl (lt_trans h1 h2)
    · exact Or.inl (h2 ▸ h1)
  · rcases h2 with h2 | ⟨h2, h2d⟩
    · exact Or.inl (h1 ▸ h2)
    · exact Or.inr ⟨h1.trans h2, le_trans h1d h2d⟩

theorem lexLe_of_better {q p : Pair} (h : betterPair q p) : lexLe q p := by
  rcases h with h | ⟨h, hd⟩
  · exact Or.inl h
  · exact Or.inr ⟨h, le_of_lt hd⟩

theorem lexLe_of_not_better {q p : Pair} (h : ¬betterPair q p) : lexLe p q := by
  unfold betterPair at h
  push_neg at h
  rcases lt_or_eq_of_le h.1 with hlt | heq
  · exact Or.inl hlt
  · exact Or.inr ⟨heq, h.2 heq.symm⟩

theorem foldBest_spec (ps : List Pair) (b : Pair) :
    (ps.foldl (fun b q => if betterPair q b then q else b) b = b ∨
      ps.foldl (fun b q => if betterPair q b then q else b) b ∈ ps) ∧
    lexLe (ps.foldl (fun b q => if betterPair q b then q else b) b) b ∧
    ∀ q ∈ ps, lexLe (ps.foldl (fun b q => if betterPair q b then q else b) b) q := by
  induction ps generalizing b with
  | nil => exact ⟨Or.inl rfl, lexLe_refl b, fun q hq => absurd hq (List.not_mem_nil q)⟩
  | cons a ps ih =>
    simp only [List.foldl_cons]
    by_cases hab : betterPair a b
    · rw [if_pos hab]
      obtain ⟨hmem, hle, hall⟩ := ih a
      refine ⟨?_, lexLe_trans hle (lexLe_of_better hab), ?_⟩
      · rcases hmem with h | h
        · refine Or.inr ?_
          rw [h]
          exact List.mem_cons_self a ps
        · exact Or.inr (List.mem_cons_of_mem a h)
      · intro q hq
        rcases List.mem_cons.1 hq with rfl | hq
        · exact hle
        · exact hall q hq
    · rw [if_neg hab]
      obtain ⟨hmem, hle, hall⟩ := ih b
      refine ⟨?_, hle, ?_⟩
      · rcases hmem with h | h
        · exact Or.inl h
        · exact Or.inr (List.mem_cons_of_mem a h)
      · intro q hq
        rcases List.mem_cons.1 hq with rfl | hq
        · exact lexLe_trans hle (lexLe_of_not_better hab)
        · exact hall q hq

theorem bestPair_spec {ps : List Pair} {p : Pair} (h : bestPair ps = some p) :
    p ∈ ps ∧ ∀ q ∈ ps, lexLe p q := by
  cases ps with
  | nil => cases h
  | cons a ps =>
    unfold bestPair at h
    rw [Option.some_inj] at h
    obtain ⟨hmem, hle, hall⟩ := foldBest_spec ps a
    rw [h] at hmem hle hall
    constructor
    · rcases hmem with hm | hm
      · rw [hm]
        exact List.mem_cons_self a ps
      · exact List.mem_cons_of_mem a hm
    · intro q hq
      rcases List.mem_cons.1 hq with rfl | hq
      · exact hle
      · exact hall q hq

theorem bestPair_of_ne_nil {ps : List Pair} (h : ps ≠ []) :
    ∃ p, bestPair ps = some p := by
  cases ps with
  | nil => exact absurd rfl h
  | cons a ps => exact ⟨_, rfl⟩

theorem all_sources_amount {rows : List ForecastRow} :
    ∀ c ∈ all_sources rows, 1 ≤ c.amount := by
  intro c hc
  rcases List.mem_append.1 hc with hc | hc <;>
  · obtain ⟨r, hr, hrc⟩ := List.mem_map.1 hc
    rw [List.mem_filter, decide_eq_true_eq] at hr
    rw [← hrc]
    show (1 : Int) ≤ max 0 (r.predicted_bikes_15m - target_level r)
    have := hr.2.2
    omega

theorem all_sinks_amount {rows : List ForecastRow} :
    ∀ c ∈ all_sinks rows, 1 ≤ c.amount := by
  intro c hc
  rcases List.mem_append.1 hc with hc | hc <;>
  · obtain ⟨r, hr, hrc⟩ := List.mem_map.1 hc
    rw [List.mem_filter, decide_eq_true_eq] at hr
    rw [← hrc]
    show (1 : Int) ≤ max 0 (target_level r - r.predicted_bikes_15m)
    have := hr.2.2
    omega

theorem pairsFor_mem {d : Nat → Nat → ℚ} {maxd : ℚ} {snks : List Cand}
    {src : Cand} {p : Pair} (hp : p ∈ pairsFor d maxd snks src) :
    ∃ k ∈ snks, d src.station_id k.station_id ≤ maxd ∧
      src.station_id ≠ k.station_id ∧
      p = ⟨src.station_id, k.station_id, src.amount, k.amount,
        min src.amount k.amount, d src.station_id k.station_id, k.priority⟩ := by
  obtain ⟨k, hk, hkp⟩ := List.mem_filterMap.1 hp
  by_cases hcond : d src.station_id k.station_id ≤ maxd ∧
      src.station_id ≠ k.station_id
  · rw [pairsFor.eq_def] at hp
    rw [if_pos hcond, Option.some_inj] at hkp
    exact ⟨k, hk, hcond.1, hcond.2, hkp.symm⟩
  · rw [if_neg hcond] at hkp
    cases hkp

theorem rankedAux {d : Nat → Nat → ℚ} {maxd : ℚ} {snks : List Cand}
    (hsnk : ∀ k ∈ snks, 1 ≤ k.amount) :
    ∀ (srcs : List Cand), (∀ c ∈ srcs, 1 ≤ c.amount) →
      ((srcs.filterMap fun src =>
        match bestPair (pairsFor d maxd snks src) with
        | none => none
        | some p => if 0 < p.move_count then some p else none).map
          Pair.from_station_id =
      (srcs.filter fun src => !(pairsFor d maxd snks src).isEmpty).map
        Cand.station_id) := by
  intro srcs
  induction srcs with
  | nil => intro _; rfl
  | cons src rest ih =>
    intro hsrc
    have hrest := fun c hc => hsrc c (List.mem_cons_of_mem src hc)
    have hsrc1 := hsrc src (List.mem_cons_self src rest)
    cases hpf : pairsFor d maxd snks src with
    | nil =>
      have hhead : (match bestPair (pairsFor d maxd snks src) with
          | none => none
          | some p => if 0 < p.move_count then (some p : Option Pair) else none) =
            none := by
        rw [hpf]
        rfl
      have hfil : (!(pairsFor d maxd snks src).isEmpty) = false := by
        rw [hpf]
        rfl
      rw [List.filterMap_cons, hhead, List.filter_cons, hfil]
      simp only [Bool.false_eq_true, if_false]
      exact ih hrest
    | cons p0 ps0 =>
      have hne : pairsFor d maxd snks src ≠ [] := by
        rw [hpf]
        exact List.cons_ne_nil p0 ps0
      obtain ⟨p, hbp⟩ := bestPair_of_ne_nil hne
      obtain ⟨hmem, _⟩ := bestPair_spec hbp
      obtain ⟨k, hk, _, _, hpeq⟩ := pairsFor_mem hmem
      have hmove : 0 < p.move_count := by
        rw [hpeq]
        show (0 : Int) < min src.amount k.amount
        exact lt_min (lt_of_lt_of_le Int.zero_lt_one hsrc1)
          (lt_of_lt_of_le Int.zero_lt_one (hsnk k hk))
      have hhead : (match bestPair (pairsFor d maxd snks src) with
          | none => none
          | some p => if 0 < p.move_count then (some p : Option Pair) else none) =
            some p := by
        rw [hbp]
        show (if 0 < p.move_count then (some p : Option Pair) else none) = some p
        rw [if_pos hmove]
      have hfil : (!(pairsFor d maxd snks src).isEmpty) = true := by
        rw [hpf]
        rfl
      rw [List.filterMap_cons, hhead, List.filter_cons, hfil]
      simp only [if_true]
      rw [List.map_cons, List.map_cons, ih hrest, hpeq]

end Matcher

/-- C5: in a matcher run, the emitted suggestions are exactly one per
source having at least one in-range sink (in source order); every emitted
suggestion has `move_count = min(available_to_give, needed) > 0`, a
distance within `max_distance`, and distinct from/to stations; and the
sink selected for a source is minimal under (priority, distance) among all
its in-range sinks — every primary sink ahead of every fallback sink,
nearest first within a tier. -/
theorem matcher_suggestions_claim (d : Nat → Nat → ℚ) (maxd : ℚ)
    (rows : List Matcher.ForecastRow) :
    ((Matcher.ranked_pairs d maxd rows).map Matcher.Pair.from_station_id =
      ((Matcher.all_sources rows).filter fun src =>
        !(Matcher.pairsFor d maxd (Matcher.all_sinks rows) src).isEmpty).map
        Matcher.Cand.station_id) ∧
    (∀ p ∈ Matcher.ranked_pairs d maxd rows,
      p.move_count = min p.available_to_give p.needed ∧ 0 < p.move_count ∧
      p.distance_m ≤ maxd ∧ p.from_station_id ≠ p.to_station_id) ∧
    (∀ src ∈ Matcher.all_sources rows, ∀ p,
      Matcher.bestPair (Matcher.pairsFor d maxd (Matcher.all_sinks rows) src) =
        some p →
      p ∈ Matcher.pairsFor d maxd (Matcher.all_sinks rows) src ∧
      ∀ q ∈ Matcher.pairsFor d maxd (Matcher.all_sinks rows) src,
        Matcher.lexLe p q) := by
  refine ⟨?_, ?_, ?_⟩
  · exact Matcher.rankedAux Matcher.all_sinks_amount (Matcher.all_sources rows)
      Matcher.all_sources_amount
  · intro p hp
    obtain ⟨src, hsrc, hval⟩ := List.mem_filterMap.1 hp
    cases hbp : Matcher.bestPair
        (Matcher.pairsFor d maxd (Matcher.all_sinks rows) src) with
    | none => rw [hbp] at hval; cases hval
    | some p1 =>
      rw [hbp] at hval
      have hval2 : (if 0 < p1.move_count then (some p1 : Option Matcher.Pair)
          else none) = some p := hval
      by_cases hmv : 0 < p1.move_count
      · rw [if_pos hmv, Option.some_inj] at hval2
        subst hval2
        obtain ⟨hmem, _⟩ := Matcher.bestPair_spec hbp
        obtain ⟨k, hk, hdist, hne, hpeq⟩ := Matcher.pairsFor_mem hmem
        refine ⟨?_, hmv, ?_, ?_⟩
        · rw [hpeq]
        · rw [hpeq]
          exact hdist
        · rw [hpeq]
          exact hne
      · rw [if_neg hmv] at hval2
        cases hval2
  · intro src _ p hbp
    exact Matcher.bestPair_spec hbp

/-- C5 witness: the per-suggestion bounds instantiated on the spec's §8
scenario — station 2 (full_soon, predicted 19, capacity 20) paired with
station 1 (empty_soon, predicted 1, capacity 20) at distance 100, moving
min(9, 9) = 9 bikes. -/
theorem matcher_suggestions_claim_witness :
    (⟨2, 1, 9, 9, 9, 100, 1⟩ : Matcher.Pair).move_count =
      min (⟨2, 1, 9, 9, 9, 100, 1⟩ : Matcher.Pair).available_to_give
        (⟨2, 1, 9, 9, 9, 100, 1⟩ : Matcher.Pair).needed ∧
    0 < (⟨2, 1, 9, 9, 9, 100, 1⟩ : Matcher.Pair).move_count ∧
    (⟨2, 1, 9, 9, 9, 100, 1⟩ : Matcher.Pair).distance_m ≤ 5000 ∧
    (⟨2, 1, 9, 9, 9, 100, 1⟩ : Matcher.Pair).from_station_id ≠
      (⟨2, 1, 9, 9, 9, 100, 1⟩ : Matcher.Pair).to_station_id :=
  (matcher_suggestions_claim (fun _ _ => (100 : ℚ)) 5000
    [⟨1, 1, RiskStatus.empty_soon, 20⟩, ⟨2, 19, RiskStatus.full_soon, 20⟩]).2.1
    ⟨2, 1, 9, 9, 9, 100, 1⟩
    (by
      have h : Matcher.ranked_pairs (fun _ _ => (100 : ℚ)) 5000
          [⟨1, 1, RiskStatus.empty_soon, 20⟩, ⟨2, 19, RiskStatus.full_soon, 20⟩] =
          [⟨2, 1, 9, 9, 9, 100, 1⟩] := by
        norm_num [Matcher.ranked_pairs, Matcher.all_sources, Matcher.sources_primary,
          Matcher.sources_fallback, Matcher.all_sinks, Matcher.sinks_primary,
          Matcher.sinks_fallback, Matcher.target_level, Matcher.pairsFor,
          Matcher.bestPair, sqlRound, List.filter, List.filterMap]
      rw [h]
      exact List.mem_singleton.2 rfl)

namespace Demand

/-- A row of `trip_history`; stations and timestamps are nullable. -/
structure Trip where
  start_station_id : Option Nat
  started_at : Option Timestamp
  end_station_id : Option Nat
  ended_at : Option Timestamp
deriving DecidableEq, Repr

/-- A grouping key of `station_15min_demand`. -/
structure FlowKey where
  station_id : Nat
  day_of_week : Nat
  hour_of_day : Nat
  quarter_hour : Nat
deriving DecidableEq, Repr

/-- The bucket of a station and timestamp: `EXTRACT(dow)`, `EXTRACT(hour)`,
`EXTRACT(minute) / 15`. -/
def bucketOf (sid : Nat) (ts : Timestamp) : FlowKey :=
  ⟨sid, ts.dow, ts.hour, ts.minute / 15⟩

/-- The departure legs: one bucket key per trip with non-`NULL` start
station and start time. -/
def depLegs (trips : List Trip) : List FlowKey :=
  trips.filterMap fun t =>
    match t.start_station_id, t.started_at with
    | some sid, some ts => some (bucketOf sid ts)
    | _, _ => none

/-- The arrival legs: one bucket key per trip with non-`NULL` end station
and end time. -/
def arrLegs (trips : List Trip) : List FlowKey :=
  trips.filterMap fun t =>
    match t.end_station_id, t.ended_at with
    | some sid, some ts => some (bucketOf sid ts)
    | _, _ => none

/-- A row of the `combined` CTE. -/
structure FlowRow where
  key : FlowKey
  departures : Int
  arrivals : Int
deriving DecidableEq, Repr

/-- The `dep` CTE: departures grouped and counted per bucket, arrivals 0. -/
def dep (trips : List Trip) : List FlowRow :=
  ((depLegs trips).dedup).map fun kk =>
    ⟨kk, ((depLegs trips).count kk : Int), 0⟩

/-- The `arr` CTE: arrivals grouped and counted per bucket, departures 0. -/
def arr (trips : List Trip) : List FlowRow :=
  ((arrLegs trips).dedup).map fun kk =>
    ⟨kk, 0, ((arrLegs trips).count kk : Int)⟩

/-- The `combined` CTE: `dep UNION ALL arr`. -/
def combined (trips : List Trip) : List FlowRow :=
  dep trips ++ arr trips

/-- A row written to `station_15min_demand`. -/
structure DemandRow where
  key : FlowKey
  avg_arrivals_15m : ℚ
  avg_departures_15m : ℚ
  avg_net_flow_15m : ℚ
deriving DecidableEq, Repr

/-- The `aggregated` CTE: group `combined` by key and take `AVG(arrivals)`,
`AVG(departures)`, `AVG(arrivals - departures)` over the grouped rows (at
most one `dep` row and one `arr` row per key). -/
def aggregated (trips : List Trip) : List DemandRow :=
  (((combined trips).map FlowRow.key).dedup).map fun kk =>
    let g := (combined trips).filter fun r => decide (r.key = kk)
    ⟨kk, ((g.map fun r => (r.arrivals : ℚ)).sum) / g.length,
      ((g.map fun r => (r.departures : ℚ)).sum) / g.length,
      ((g.map fun r => ((r.arrivals - r.departures : Int) : ℚ)).sum) / g.length⟩

/-- The departure timestamps falling in a given bucket. -/
def depInstants (trips : List Trip) (k : FlowKey) : List Timestamp :=
  trips.filterMap fun t =>
    match t.start_station_id, t.started_at with
    | some sid, some ts => if bucketOf sid ts = k then some ts else none
    | _, _ => none

/-- The arrival timestamps falling in a given bucket. -/
def arrInstants (trips : List Trip) (k : FlowKey) : List Timestamp :=
  trips.filterMap fun t =>
    match t.end_station_id, t.ended_at with
    | some sid, some ts => if bucketOf sid ts = k then some ts else none
    | _, _ => none

/-- Modelled from the spec: the matching historical instants of a bucket —
the distinct timestamps at which the bucket saw any activity. -/
def instantsOf (trips : List Trip) (k : FlowKey) : List Timestamp :=
  (depInstants trips k ++ arrInstants trips k).dedup

/-- Modelled from the spec: `avg_departures = mean(departures per matching
historical instant)` — the number of departures at each matching instant,
averaged over the instants. -/
def specAvgDepartures (trips : List Trip) (k : FlowKey) : ℚ :=
  (((instantsOf trips k).map fun ts =>
    ((depInstants trips k).count ts : ℚ)).sum) / (instantsOf trips k).length

end Demand

/-- C6: the aggregation divides bucket totals by the number of dep/arr leg
rows present (one or two), never by the number of matching historical
instants. Two departures from station 1 in the same weekly bucket at
distinct instants (Monday 12:00 and Monday 12:05) and no arrivals yield a
written `avg_departures_15m` of 2, while the mean departures per matching
historical instant is 1. -/
theorem demand_avg_not_per_instant :
    Demand.aggregated [⟨some 1, some ⟨1, 12, 0⟩, none, none⟩,
        ⟨some 1, some ⟨1, 12, 5⟩, none, none⟩] =
      [⟨⟨1, 1, 12, 0⟩, 0, 2, -2⟩] ∧
    Demand.specAvgDepartures [⟨some 1, some ⟨1, 12, 0⟩, none, none⟩,
        ⟨some 1, some ⟨1, 12, 5⟩, none, none⟩] ⟨1, 1, 12, 0⟩ = 1 ∧
    (2 : ℚ) ≠ 1 := by
  refine ⟨?_, ?_, by norm_num⟩
  · norm_num [Demand.aggregated, Demand.combined, Demand.dep, Demand.arr,
      Demand.depLegs, Demand.arrLegs, Demand.bucketOf, List.dedup_cons_of_mem,
      List.dedup_cons_of_not_mem, List.count_cons, List.filterMap, List.filter]
  · norm_num [Demand.specAvgDepartures, Demand.instantsOf, Demand.depInstants,
      Demand.arrInstants, Demand.bucketOf, List.dedup_cons_of_mem,
      List.dedup_cons_of_not_mem, List.count_cons, List.filterMap]

end BayWheels
